import Mathlib

/-!
Shallow embedding of the EAN-8 and EAN supplemental (EAN-2 / EAN-5) barcode
encoders of the `barcoders` library (`src/sym/mod.rs`, `src/sym/ean8.rs`,
`src/sym/ean_supp.rs`), together with the shared validation routine.

Strings are modelled as `List Char`; machine integers (`u8`, `u32`, `usize`)
are modelled as `Nat` (all quantities involved are small: digits are at most 9
and positional sums over at most 8 digits stay far below every relevant
overflow bound). Rust's panicking operations (`expect`, out-of-bounds array
indexing) are modelled by `Option`: `none` is a panic.
-/

namespace Barcoders

/-- Rust `char::to_digit(10)`: `some` of the digit value for `'0'..='9'`
(code points 48–57), `none` otherwise. -/
def toDigit (c : Char) : Option Nat :=
  if 48 ≤ c.toNat ∧ c.toNat ≤ 57 then some (c.toNat - 48) else none

/-- Rust `char::from_digit(i, 10)`: the character for a digit value below 10. -/
def from_digit (i : Nat) : Option Char :=
  if i < 10 then some (Char.ofNat (48 + i)) else none

/-- `valid_chars()` shared by `EAN8` and `EANSUPP`:
`(0..10).into_iter().map(|i| char::from_digit(i, 10).unwrap()).collect()`. -/
def eanValidChars : List Char :=
  (List.range 10).map (fun i => (from_digit i).getD ' ')

/-- The two distinguishable causes of `Parse::parse` failure (the Rust code
returns formatted strings; `lengthError` carries the two numbers interpolated
into the message, i.e. `valid_len.start` and `valid_len.end - 1`). -/
inductive ParseError where
  | lengthError (lo hi : Nat)
  | invalidChar (c : Char)
deriving DecidableEq, Repr

/-- The data a `Parse` implementation supplies: `valid_chars()` and the
`valid_len()` range (`lenStart..lenStop` as a Rust `Range<u32>`). -/
structure ParseCfg where
  validChars : List Char
  lenStart : Nat
  lenStop : Nat
deriving DecidableEq, Repr

/-- `Parse::parse` (`src/sym/mod.rs`): reject when
`data_len < valid_len.start || data_len > valid_len.end` (note `>`,
not `≥`, faithful to the source), then scan for the first character not in
`valid_chars()`. -/
def parse (cfg : ParseCfg) (data : List Char) : Except ParseError (List Char) :=
  if data.length < cfg.lenStart ∨ data.length > cfg.lenStop then
    .error (.lengthError cfg.lenStart (cfg.lenStop - 1))
  else
    match data.find? (fun c => (cfg.validChars.find? (fun vc => vc == c)).isNone) with
    | some c => .error (.invalidChar c)
    | none => .ok data

/-- `d.chars().map(|c| c.to_digit(10).expect(..) as u8).collect()`: the
per-character digit conversion; `none` models the `expect` panic. -/
def digitsOf : List Char → Option (List Nat)
  | [] => some []
  | c :: rest => do
    let d ← toDigit c
    let ds ← digitsOf rest
    pure (d :: ds)

/-- Modelled from the spec: the shared digit tables of `src/sym/ean13.rs`
(not under `src/` here). Three parity tables — left-odd, left-even, right —
each mapping a digit 0–9 to a 7-bit pattern. The spec pins them down through
the structural properties of §4.4 and the known encoding vectors of §8; the
table below (the standard EAN table) reproduces every §8 vector exactly and
its §4.4-style properties are proved at the end of this file. -/
def EAN_ENCODINGS : List (List (List Nat)) :=
  [[[0,0,0,1,1,0,1], [0,0,1,1,0,0,1], [0,0,1,0,0,1,1], [0,1,1,1,1,0,1], [0,1,0,0,0,1,1],
    [0,1,1,0,0,0,1], [0,1,0,1,1,1,1], [0,1,1,1,0,1,1], [0,1,1,0,1,1,1], [0,0,0,1,0,1,1]],
   [[0,1,0,0,1,1,1], [0,1,1,0,0,1,1], [0,0,1,1,0,1,1], [0,1,0,0,0,0,1], [0,0,1,1,1,0,1],
    [0,1,1,1,0,0,1], [0,0,0,0,1,0,1], [0,0,1,0,0,0,1], [0,0,0,1,0,0,1], [0,0,1,0,1,1,1]],
   [[1,1,1,0,0,1,0], [1,1,0,0,1,1,0], [1,1,0,1,1,0,0], [1,0,0,0,0,1,0], [1,0,1,1,1,0,0],
    [1,0,0,1,1,1,0], [1,0,1,0,0,0,0], [1,0,0,0,1,0,0], [1,0,0,1,0,0,0], [1,1,1,0,1,0,0]]]

/-- Modelled from the spec: guard constants of `src/sym/ean13.rs`
(§4.4: left guard `1,0,1`). -/
def EAN_LEFT_GUARD : List Nat := [1,0,1]

/-- Modelled from the spec: middle guard `0,1,0,1,0` (§4.4). -/
def EAN_MIDDLE_GUARD : List Nat := [0,1,0,1,0]

/-- Modelled from the spec: right guard `1,0,1` (§4.4). -/
def EAN_RIGHT_GUARD : List Nat := [1,0,1]

/-- Modelled from the spec: `helpers::join_vecs` (§4.5) — concatenate the
given bit sequences in order. -/
def join_vecs (vs : List (List Nat)) : List Nat := vs.flatten

/-- The array lookup `EAN_ENCODINGS[side][d]` (shared shape of
`EAN8::char_encoding` and `EANSUPP::char_encoding`); `none` models the
out-of-bounds panic. -/
def char_encoding (side d : Nat) : Option (List Nat) :=
  (EAN_ENCODINGS.get? side).bind fun t => t.get? d

/-- Total view of the table used to state claims: the 7-bit pattern of
digit `d` in table `side` (junk `[]` out of bounds). -/
def tableEntry (side d : Nat) : List Nat :=
  (char_encoding side d).getD []

/-- The loop shared by `EAN8::checksum_digit` and `EANSUPP::checksum_digit`:
fold over `iter().enumerate()`, adding digits at positions `i` with
`i % 2 == 1` to `evens` (second component) and all others to `odds` (first
component). -/
def sumsStep (oe : Nat × Nat) (p : Nat × Nat) : Nat × Nat :=
  if p.1 % 2 = 1 then (oe.1, oe.2 + p.2) else (oe.1 + p.2, oe.2)

/-- `(odds, evens)` as computed by the checksum loops. -/
def oddsEvens (data : List Nat) : Nat × Nat :=
  data.enum.foldl sumsStep (0, 0)

/-- The EAN-8 barcode type: its validated digits. -/
structure EAN8 where
  data : List Nat
deriving DecidableEq, Repr

/-- `EAN8`'s `Parse` instance data: `valid_len() = 7..8`, digit characters. -/
def ean8Cfg : ParseCfg := ⟨eanValidChars, 7, 8⟩

/-- `EAN8::new`: parse, then convert each character (`none` inside the `ok`
models the `expect` panic, which the validation makes unreachable). -/
def EAN8.new (input : List Char) : Except ParseError (Option EAN8) :=
  match parse ean8Cfg input with
  | .error e => .error e
  | .ok d => .ok ((digitsOf d).map EAN8.mk)

/-- `EAN8::raw_data`. -/
def EAN8.raw_data (b : EAN8) : List Nat := b.data

/-- `EAN8::checksum_digit`: `10 - ((odds*3 + evens) % 10)`, with `10`
mapped to `0`. -/
def EAN8.checksum_digit (b : EAN8) : Nat :=
  let s := oddsEvens b.data
  let n := 10 - ((s.1 * 3) + s.2) % 10
  if n = 10 then 0 else n

/-- `EAN8::number_system_digits`: `&self.data[0..2]`. -/
def EAN8.number_system_digits (b : EAN8) : List Nat := b.data.take 2

/-- `EAN8::left_digits`: `&self.data[2..4]`. -/
def EAN8.left_digits (b : EAN8) : List Nat := (b.data.drop 2).take 2

/-- `EAN8.right_digits`: `&self.data[4..]`. -/
def EAN8.right_digits (b : EAN8) : List Nat := b.data.drop 4

/-- Encode each digit of a group through `char_encoding side`; `none` models
a panicking table lookup. -/
def encodeEach (side : Nat) : List Nat → Option (List (List Nat))
  | [] => some []
  | d :: rest => do
    let e ← char_encoding side d
    let es ← encodeEach side rest
    pure (e :: es)

/-- `EAN8::number_system_encoding`: left-odd (side 0) patterns of the first
two digits, concatenated. -/
def EAN8.number_system_encoding (b : EAN8) : Option (List Nat) :=
  (encodeEach 0 b.number_system_digits).map List.flatten

/-- `EAN8::left_payload`: left-odd (side 0) patterns of digits 3–4. -/
def EAN8.left_payload (b : EAN8) : Option (List Nat) :=
  (encodeEach 0 b.left_digits).map List.flatten

/-- `EAN8::right_payload`: right-table (side 2) patterns of digits 5–7. -/
def EAN8.right_payload (b : EAN8) : Option (List Nat) :=
  (encodeEach 2 b.right_digits).map List.flatten

/-- `EAN8::checksum_encoding`: right-table pattern of the checksum digit. -/
def EAN8.checksum_encoding (b : EAN8) : Option (List Nat) :=
  char_encoding 2 b.checksum_digit

/-- `EAN8::encode`: `join_vecs` of left guard, number system encoding, left
payload, middle guard, right payload, checksum encoding, right guard. -/
def EAN8.encode (b : EAN8) : Option (List Nat) := do
  let ns ← b.number_system_encoding
  let lp ← b.left_payload
  let rp ← b.right_payload
  let ce ← b.checksum_encoding
  pure (join_vecs [EAN_LEFT_GUARD, ns, lp, EAN_MIDDLE_GUARD, rp, ce, EAN_RIGHT_GUARD])

/-- `EANSUPP_LEFT_GUARD: [u8; 4] = [1,0,1,1]` (`src/sym/ean_supp.rs`). -/
def EANSUPP_LEFT_GUARD : List Nat := [1,0,1,1]

/-- `EAN5_PARITY` (`src/sym/ean_supp.rs`): parity pattern per check digit. -/
def EAN5_PARITY : List (List Nat) :=
  [[0,0,1,1,1],
   [1,0,1,0,0],
   [1,0,0,1,0],
   [1,0,0,0,1],
   [0,1,1,0,0],
   [0,0,1,1,0],
   [0,0,0,1,1],
   [0,1,0,1,0],
   [0,1,0,0,1],
   [0,0,1,0,1]]

/-- `EAN2_PARITY` (`src/sym/ean_supp.rs`). -/
def EAN2_PARITY : List (List Nat) :=
  [[0,0,0,0,0],
   [0,1,0,0,0],
   [1,0,0,0,0],
   [1,1,0,0,0]]

/-- The Supplemental EAN barcode type: either variant holds its digits. -/
inductive EANSUPP where
  | ean2 (data : List Nat)
  | ean5 (data : List Nat)
deriving DecidableEq, Repr

/-- The failure causes of `EANSUPP::new`: a `Parse::parse` failure, or the
`Invalid supplemental length: n` error of the variant-selection step. -/
inductive SuppError where
  | parseErr (e : ParseError)
  | invalidLength (n : Nat)
deriving DecidableEq, Repr

/-- `EANSUPP`'s `Parse` instance data: `valid_len() = 2..5`, digit characters. -/
def eansuppCfg : ParseCfg := ⟨eanValidChars, 2, 5⟩

/-- `EANSUPP::new`: parse, convert characters to digits (`none` inside the
`ok` models the `expect` panic), then select the variant by digit count —
2 gives `EAN2`, 5 gives `EAN5`, anything else the unsupported-length error. -/
def EANSUPP.new (input : List Char) : Except SuppError (Option EANSUPP) :=
  match parse eansuppCfg input with
  | .error e => .error (.parseErr e)
  | .ok d =>
    match digitsOf d with
    | none => .ok none
    | some digits =>
      if digits.length = 2 then .ok (some (.ean2 digits))
      else if digits.length = 5 then .ok (some (.ean5 digits))
      else .error (.invalidLength digits.length)

/-- `EANSUPP::raw_data`. -/
def EANSUPP.raw_data : EANSUPP → List Nat
  | .ean2 d => d
  | .ean5 d => d

/-- `EANSUPP::checksum_digit`: `((odds*3) + (evens*9)) % 10`, with `10`
mapped to `0` (same positional partition as EAN-8). -/
def EANSUPP.checksum_digit (b : EANSUPP) : Nat :=
  let s := oddsEvens b.raw_data
  let n := ((s.1 * 3) + (s.2 * 9)) % 10
  if n = 10 then 0 else n

/-- `EANSUPP::parity`: for `EAN2`, `EAN2_PARITY[((d[0]*10) + d[1]) % 4]`
(the element accesses and the table lookup panic — `none` — out of bounds);
for `EAN5`, `EAN5_PARITY[checksum_digit()]`. -/
def EANSUPP.parity : EANSUPP → Option (List Nat)
  | .ean2 d => do
    let a ← d.get? 0
    let b ← d.get? 1
    EAN2_PARITY.get? (((a * 10) + b) % 4)
  | .ean5 d => EAN5_PARITY.get? (EANSUPP.checksum_digit (.ean5 d))

/-- Encode digit/parity pairs through `char_encoding`: the
`zip(parity).map(|(d, s)| char_encoding(*s, &d))` step of
`EANSUPP::payload`. -/
def encodePairs : List (Nat × Nat) → Option (List (List Nat))
  | [] => some []
  | p :: rest => do
    let e ← char_encoding p.2 p.1
    let es ← encodePairs rest
    pure (e :: es)

/-- The separator-inserting loop of `EANSUPP::payload`: push `0,1` before
every slice except the first, then the slice itself. -/
def addSep (slices : List (List Nat)) : List Nat :=
  slices.enum.foldl (fun acc q => if q.1 > 0 then (acc ++ [0,1]) ++ q.2 else acc ++ q.2) []

/-- `EANSUPP::payload`. -/
def EANSUPP.payload (b : EANSUPP) : Option (List Nat) := do
  let par ← b.parity
  let slices ← encodePairs (b.raw_data.zip par)
  pure (addSep slices)

/-- `EANSUPP::encode`: `join_vecs` of the supplemental guard and the payload. -/
def EANSUPP.encode (b : EANSUPP) : Option (List Nat) := do
  let p ← b.payload
  pure (join_vecs [EANSUPP_LEFT_GUARD, p])

/-! ### Specification-side vocabulary used to state the claims -/

/-- Sum of the digits at positions with even zero-based index. -/
def sumIdxEven (l : List Nat) : Nat :=
  ((l.enum.filter (fun p => p.1 % 2 = 0)).map Prod.snd).sum

/-- Sum of the digits at positions with odd zero-based index. -/
def sumIdxOdd (l : List Nat) : Nat :=
  ((l.enum.filter (fun p => p.1 % 2 = 1)).map Prod.snd).sum

/-- Concatenate bit groups, inserting the 2-bit separator `0,1` before every
group except the first. -/
def sepJoin : List (List Nat) → List Nat
  | [] => []
  | x :: xs => x ++ (xs.map (fun y => [0,1] ++ y)).flatten

/-! ### Basic lemmas -/

theorem eanValidChars_eq :
    eanValidChars = ['0','1','2','3','4','5','6','7','8','9'] := by decide

theorem toDigit_of_mem (c : Char) (h : c ∈ eanValidChars) :
    toDigit c = some (c.toNat - 48) ∧ c.toNat - 48 < 10 := by
  rw [eanValidChars_eq] at h
  fin_cases h <;> exact ⟨by decide, by decide⟩

theorem toDigit_some_inv (c : Char) (d : Nat) (h : toDigit c = some d) :
    d = c.toNat - 48 ∧ d < 10 := by
  unfold toDigit at h
  split at h
  · next hc => cases h; omega
  · cases h

theorem find?_beq_isNone_iff (l : List Char) (c : Char) :
    ((l.find? (fun vc => vc == c)).isNone) = true ↔ c ∉ l := by
  rw [Option.isNone_iff_eq_none, List.find?_eq_none]
  constructor
  · intro h hc
    exact h c hc (by simp)
  · intro h x hx hbeq
    exact h (beq_iff_eq.mp hbeq ▸ hx)

theorem parse_ok_inv (cfg : ParseCfg) (data out : List Char)
    (h : parse cfg data = .ok out) :
    out = data ∧ cfg.lenStart ≤ data.length ∧ data.length ≤ cfg.lenStop ∧
      ∀ c ∈ data, c ∈ cfg.validChars := by
  unfold parse at h
  split at h
  · cases h
  · next hlen =>
    refine ?_
    split at h
    · cases h
    · next hfind =>
      cases h
      refine ⟨rfl, by omega, by omega, ?_⟩
      intro c hc
      have := List.find?_eq_none.mp hfind c hc
      simpa [find?_beq_isNone_iff] using this

theorem parse_ok_of (cfg : ParseCfg) (data : List Char)
    (h1 : cfg.lenStart ≤ data.length) (h2 : data.length ≤ cfg.lenStop)
    (h3 : ∀ c ∈ data, c ∈ cfg.validChars) :
    parse cfg data = .ok data := by
  unfold parse
  rw [if_neg (by omega)]
  have hnone :
      data.find? (fun c => (cfg.validChars.find? (fun vc => vc == c)).isNone) = none := by
    rw [List.find?_eq_none]
    intro c hc
    intro habs
    exact (find?_beq_isNone_iff cfg.validChars c).mp habs (h3 c hc)
  rw [hnone]

theorem parse_len_err (cfg : ParseCfg) (data : List Char)
    (h : data.length < cfg.lenStart ∨ data.length > cfg.lenStop) :
    parse cfg data = .error (.lengthError cfg.lenStart (cfg.lenStop - 1)) := by
  unfold parse
  rw [if_pos h]

theorem digitsOf_of_valid (input : List Char) (h : ∀ c ∈ input, c ∈ eanValidChars) :
    digitsOf input = some (input.map (fun c => c.toNat - 48)) := by
  induction input with
  | nil => rfl
  | cons c rest ih =>
    have hc := (toDigit_of_mem c (h c (by simp))).1
    have hr := ih (fun x hx => h x (by simp [hx]))
    simp [digitsOf, hc, hr]

theorem digitsOf_inv (input : List Char) (l : List Nat) (h : digitsOf input = some l) :
    l = input.map (fun c => c.toNat - 48) ∧ l.length = input.length ∧
      ∀ d ∈ l, d < 10 := by
  induction input generalizing l with
  | nil =>
    simp [digitsOf] at h
    subst h
    simp
  | cons c rest ih =>
    simp only [digitsOf, Option.bind_eq_bind, Option.pure_def] at h
    cases hc : toDigit c with
    | none => rw [hc] at h; cases h
    | some d =>
      rw [hc] at h
      cases hr : digitsOf rest with
      | none => rw [hr] at h; cases h
      | some ds =>
        rw [hr] at h
        simp only [Option.some_bind, Option.some.injEq] at h
        obtain ⟨hd, hd10⟩ := toDigit_some_inv c d hc
        obtain ⟨he, hlen, hall⟩ := ih ds hr
        subst h
        refine ⟨by simp [hd, he], by simp [hlen], ?_⟩
        intro x hx
        rcases List.mem_cons.mp hx with hx | hx
        · omega
        · exact hall x hx

theorem foldl_sumsStep (ps : List (Nat × Nat)) (a b : Nat) :
    ps.foldl sumsStep (a, b) =
      (a + ((ps.filter (fun p => p.1 % 2 = 0)).map Prod.snd).sum,
       b + ((ps.filter (fun p => p.1 % 2 = 1)).map Prod.snd).sum) := by
  induction ps generalizing a b with
  | nil => simp
  | cons p rest ih =>
    rw [List.foldl_cons]
    by_cases hp : p.1 % 2 = 1
    · have h0 : ¬ (p.1 % 2 = 0) := by omega
      rw [show sumsStep (a, b) p = (a, b + p.2) from by simp [sumsStep, hp]]
      rw [ih]
      simp [List.filter_cons, hp, h0, Nat.add_assoc]
    · have h0 : p.1 % 2 = 0 := by omega
      rw [show sumsStep (a, b) p = (a + p.2, b) from by simp [sumsStep, hp]]
      rw [ih]
      simp [List.filter_cons, hp, h0, Nat.add_assoc]

theorem oddsEvens_eq (l : List Nat) : oddsEvens l = (sumIdxEven l, sumIdxOdd l) := by
  unfold oddsEvens sumIdxEven sumIdxOdd
  rw [foldl_sumsStep]
  simp

theorem char_encoding_spec :
    ∀ s, s < 3 → ∀ d, d < 10 →
      char_encoding s d = some (tableEntry s d) ∧ (tableEntry s d).length = 7 := by
  decide

theorem ean8_checksum_digit_lt (b : EAN8) : b.checksum_digit < 10 := by
  unfold EAN8.checksum_digit
  have h : ((oddsEvens b.data).1 * 3 + (oddsEvens b.data).2) % 10 < 10 := by
    exact Nat.mod_lt _ (by omega)
  dsimp only
  split
  · omega
  · next hne => omega

theorem eansupp_checksum_digit_lt (b : EANSUPP) : b.checksum_digit < 10 := by
  unfold EANSUPP.checksum_digit
  have h : ((oddsEvens b.raw_data).1 * 3 + (oddsEvens b.raw_data).2 * 9) % 10 < 10 :=
    Nat.mod_lt _ (by omega)
  dsimp only
  split
  · omega
  · next hne => omega

theorem encodeEach_of_lt (s : Nat) (hs : s < 3) (l : List Nat) (hl : ∀ d ∈ l, d < 10) :
    encodeEach s l = some (l.map (tableEntry s)) := by
  induction l with
  | nil => rfl
  | cons d rest ih =>
    have hd := (char_encoding_spec s hs d (hl d (by simp))).1
    have hr := ih (fun x hx => hl x (by simp [hx]))
    simp [encodeEach, hd, hr]

theorem flatten_tableEntry_length (s : Nat) (hs : s < 3) (l : List Nat)
    (hl : ∀ d ∈ l, d < 10) :
    (l.map (tableEntry s)).flatten.length = 7 * l.length := by
  induction l with
  | nil => simp
  | cons d rest ih =>
    have hd := (char_encoding_spec s hs d (hl d (by simp))).2
    have hr := ih (fun x hx => hl x (by simp [hx]))
    simp [hd, hr]
    ring

theorem ean8_new_inv (input : List Char) (b : EAN8)
    (h : EAN8.new input = .ok (some b)) :
    b.data = input.map (fun c => c.toNat - 48) ∧
      b.data.length = input.length ∧ (∀ d ∈ b.data, d < 10) ∧
      7 ≤ input.length ∧ input.length ≤ 8 := by
  unfold EAN8.new at h
  cases hp : parse ean8Cfg input with
  | error e => rw [hp] at h; cases h
  | ok d =>
    rw [hp] at h
    dsimp only at h
    obtain ⟨rfl, h1, h2, _⟩ := parse_ok_inv _ _ _ hp
    cases hd : digitsOf d with
    | none => rw [hd] at h; cases h
    | some l =>
      rw [hd] at h
      simp only [Option.map_some', Except.ok.injEq, Option.some.injEq] at h
      obtain ⟨he, hlen, hall⟩ := digitsOf_inv d l hd
      subst h
      exact ⟨he, hlen, hall, h1, h2⟩

theorem eansupp_new_inv (input : List Char) (s : EANSUPP)
    (h : EANSUPP.new input = .ok (some s)) :
    s.raw_data = input.map (fun c => c.toNat - 48) ∧
      s.raw_data.length = input.length ∧ (∀ d ∈ s.raw_data, d < 10) ∧
      ((s.raw_data.length = 2 ∧ s = .ean2 s.raw_data) ∨
       (s.raw_data.length = 5 ∧ s = .ean5 s.raw_data)) := by
  unfold EANSUPP.new at h
  cases hp : parse eansuppCfg input with
  | error e => rw [hp] at h; cases h
  | ok d =>
    rw [hp] at h
    dsimp only at h
    obtain ⟨rfl, _, _, _⟩ := parse_ok_inv _ _ _ hp
    cases hd : digitsOf d with
    | none => rw [hd] at h; cases h
    | some l =>
      rw [hd] at h
      dsimp only at h
      obtain ⟨he, hlen, hall⟩ := digitsOf_inv d l hd
      by_cases h2 : l.length = 2
      · rw [if_pos h2] at h
        cases h
        exact ⟨he, hlen, hall, Or.inl ⟨h2, rfl⟩⟩
      · rw [if_neg h2] at h
        by_cases h5 : l.length = 5
        · rw [if_pos h5] at h
          cases h
          exact ⟨he, hlen, hall, Or.inr ⟨h5, rfl⟩⟩
        · rw [if_neg h5] at h
          cases h

theorem EAN2_PARITY_get (n : Nat) (h : n < 4) :
    EAN2_PARITY.get? n = some (EAN2_PARITY.getD n []) := by
  have hd : ∀ m, m < 4 → EAN2_PARITY.get? m = some (EAN2_PARITY.getD m []) := by decide
  exact hd n h

theorem EAN5_PARITY_get (n : Nat) (h : n < 10) :
    EAN5_PARITY.get? n = some (EAN5_PARITY.getD n []) := by
  have hd : ∀ m, m < 10 → EAN5_PARITY.get? m = some (EAN5_PARITY.getD m []) := by decide
  exact hd n h

theorem EAN2_PARITY_entry : ∀ n, n < 4 →
    (EAN2_PARITY.getD n []).length = 5 ∧ ∀ x ∈ EAN2_PARITY.getD n [], x < 3 := by
  decide

theorem EAN5_PARITY_entry : ∀ n, n < 10 →
    (EAN5_PARITY.getD n []).length = 5 ∧ ∀ x ∈ EAN5_PARITY.getD n [], x < 3 := by
  decide

theorem ean8_encode_eq (b : EAN8) (hall : ∀ d ∈ b.data, d < 10) :
    b.encode = some (
      EAN_LEFT_GUARD ++ (b.number_system_digits.map (tableEntry 0)).flatten
      ++ (b.left_digits.map (tableEntry 0)).flatten ++ EAN_MIDDLE_GUARD
      ++ (b.right_digits.map (tableEntry 2)).flatten
      ++ tableEntry 2 b.checksum_digit ++ EAN_RIGHT_GUARD) := by
  have hns : encodeEach 0 b.number_system_digits =
      some (b.number_system_digits.map (tableEntry 0)) :=
    encodeEach_of_lt 0 (by omega) _
      (fun d hd => hall d (List.take_subset _ _ hd))
  have hld : encodeEach 0 b.left_digits = some (b.left_digits.map (tableEntry 0)) :=
    encodeEach_of_lt 0 (by omega) _
      (fun d hd => hall d (List.drop_subset _ _ (List.take_subset _ _ hd)))
  have hrd : encodeEach 2 b.right_digits = some (b.right_digits.map (tableEntry 2)) :=
    encodeEach_of_lt 2 (by omega) _
      (fun d hd => hall d (List.drop_subset _ _ hd))
  have hcs : char_encoding 2 b.checksum_digit = some (tableEntry 2 b.checksum_digit) :=
    (char_encoding_spec 2 (by omega) _ (ean8_checksum_digit_lt b)).1
  simp [EAN8.encode, EAN8.number_system_encoding, EAN8.left_payload,
    EAN8.right_payload, EAN8.checksum_encoding, hns, hld, hrd, hcs,
    join_vecs, List.append_assoc]

theorem encodePairs_of_lt (ps : List (Nat × Nat))
    (h : ∀ p ∈ ps, p.1 < 10 ∧ p.2 < 3) :
    encodePairs ps = some (ps.map (fun p => tableEntry p.2 p.1)) := by
  induction ps with
  | nil => rfl
  | cons p rest ih =>
    obtain ⟨h1, h2⟩ := h p (by simp)
    have hp := (char_encoding_spec p.2 h2 p.1 h1).1
    simp [encodePairs, hp, ih (fun q hq => h q (by simp [hq]))]

theorem addSep_aux (xs : List (List Nat)) :
    ∀ (k : Nat) (a : List Nat), 1 ≤ k →
      (List.enumFrom k xs).foldl
        (fun acc q => if q.1 > 0 then (acc ++ [0,1]) ++ q.2 else acc ++ q.2) a
      = a ++ (xs.map (fun y => [0,1] ++ y)).flatten := by
  induction xs with
  | nil =>
    intro k a _
    simp
  | cons x rest ih =>
    intro k a hk
    rw [List.enumFrom_cons, List.foldl_cons]
    dsimp only
    rw [if_pos (by omega)]
    rw [ih (k + 1) _ (by omega)]
    simp [List.append_assoc]

theorem addSep_eq_sepJoin (slices : List (List Nat)) :
    addSep slices = sepJoin slices := by
  cases slices with
  | nil => rfl
  | cons x xs =>
    unfold addSep sepJoin
    rw [List.enum_cons, List.foldl_cons]
    dsimp only
    rw [if_neg (by omega)]
    rw [addSep_aux xs 1 ([] ++ x) (by omega)]
    simp

theorem flatten_sep_length (ys : List (List Nat)) (hys : ∀ y ∈ ys, y.length = 7) :
    ((ys.map (fun y => [0,1] ++ y)).flatten).length = 9 * ys.length := by
  induction ys with
  | nil => simp
  | cons y yt ih =>
    have h1 := hys y (by simp)
    have h2 := ih (fun z hz => hys z (by simp [hz]))
    simp only [List.map_cons, List.flatten_cons, List.length_append, h1, h2,
      List.length_cons, List.length_nil]
    omega

theorem sepJoin_length (slices : List (List Nat))
    (h : ∀ x ∈ slices, x.length = 7) (hne : slices ≠ []) :
    (sepJoin slices).length = 9 * slices.length - 2 := by
  cases slices with
  | nil => exact absurd rfl hne
  | cons x xs =>
    unfold sepJoin
    rw [List.length_append, h x (by simp),
      flatten_sep_length xs (fun y hy => h y (by simp [hy]))]
    simp
    omega

theorem EANSUPP.parity_spec (s : EANSUPP) (h2 : 2 ≤ s.raw_data.length) :
    ∃ par, s.parity = some par ∧ par.length = 5 ∧ ∀ x ∈ par, x < 3 := by
  cases s with
  | ean2 d =>
    rcases d with _ | ⟨d0, _ | ⟨d1, rest⟩⟩
    · simp [EANSUPP.raw_data] at h2
    · simp [EANSUPP.raw_data] at h2
    · have hidx : (d0 * 10 + d1) % 4 < 4 := Nat.mod_lt _ (by omega)
      obtain ⟨hl, hb⟩ := EAN2_PARITY_entry _ hidx
      refine ⟨EAN2_PARITY.getD ((d0 * 10 + d1) % 4) [], ?_, hl, hb⟩
      show EAN2_PARITY.get? ((d0 * 10 + d1) % 4) = _
      exact EAN2_PARITY_get _ hidx
  | ean5 d =>
    have hidx := eansupp_checksum_digit_lt (.ean5 d)
    obtain ⟨hl, hb⟩ := EAN5_PARITY_entry _ hidx
    refine ⟨EAN5_PARITY.getD (EANSUPP.checksum_digit (.ean5 d)) [], ?_, hl, hb⟩
    show EAN5_PARITY.get? (EANSUPP.checksum_digit (.ean5 d)) = _
    exact EAN5_PARITY_get _ hidx

theorem eansupp_encode_eq (s : EANSUPP) (hall : ∀ d ∈ s.raw_data, d < 10)
    (h2 : 2 ≤ s.raw_data.length) :
    ∃ par, s.parity = some par ∧ par.length = 5 ∧ (∀ x ∈ par, x < 3) ∧
      s.encode = some (EANSUPP_LEFT_GUARD ++
        sepJoin ((s.raw_data.zip par).map (fun p => tableEntry p.2 p.1))) := by
  obtain ⟨par, hpar, hlen5, hbound⟩ := EANSUPP.parity_spec s h2
  have hpairs : ∀ p ∈ s.raw_data.zip par, p.1 < 10 ∧ p.2 < 3 := by
    intro p hp
    obtain ⟨hp1, hp2⟩ := List.of_mem_zip hp
    exact ⟨hall p.1 hp1, hbound p.2 hp2⟩
  have hep := encodePairs_of_lt _ hpairs
  refine ⟨par, hpar, hlen5, hbound, ?_⟩
  simp only [EANSUPP.encode, EANSUPP.payload, hpar, hep, Option.bind_eq_bind,
    Option.some_bind, Option.pure_def, Option.map_some']
  rw [addSep_eq_sepJoin]
  simp [join_vecs]

theorem find?_leftmost {α : Type} (p : α → Bool) (l : List α) (c : α)
    (h : l.find? p = some c) :
    ∃ i, ∃ hi : i < l.length, l.get ⟨i, hi⟩ = c ∧ p c = true ∧
      ∀ j, ∀ hj : j < l.length, j < i → p (l.get ⟨j, hj⟩) = false := by
  induction l with
  | nil => cases h
  | cons a rest ih =>
    cases hpa : p a with
    | true =>
      rw [List.find?_cons_of_pos _ hpa] at h
      cases h
      exact ⟨0, by simp, rfl, hpa, fun j hj hlt => absurd hlt (by omega)⟩
    | false =>
      rw [List.find?_cons_of_neg _ (by rw [hpa]; exact Bool.false_ne_true)] at h
      obtain ⟨i, hi, hgi, hpc, hmin⟩ := ih h
      refine ⟨i + 1, by simpa using hi, ?_, hpc, ?_⟩
      · simpa using hgi
      · intro j hj hlt
        cases j with
        | zero => simpa using hpa
        | succ k =>
          have hk : k < rest.length := by simpa using hj
          have hm := hmin k hk (by omega)
          simpa using hm

theorem parse_bad_char (cfg : ParseCfg) (input : List Char)
    (hlen : ¬(input.length < cfg.lenStart ∨ input.length > cfg.lenStop))
    (c : Char)
    (hfind : input.find?
      (fun c => (cfg.validChars.find? (fun vc => vc == c)).isNone) = some c) :
    parse cfg input = .error (.invalidChar c) := by
  unfold parse
  rw [if_neg hlen, hfind]

/-! ### Claims -/

/-- Claim C2: for every `EAN8` instance constructed from a valid 7-digit
input, `checksum_digit()` equals `10 - ((3*odds + evens) mod 10)` with a
result of 10 mapped to 0, where `odds` sums the digits at even zero-based
indices and `evens` those at odd indices; in particular the checksum of
`"4575678"` is 8 and of `"9534763"` is 9. -/
theorem C2_ean8_checksum :
    (∀ (input : List Char) (b : EAN8),
      EAN8.new input = .ok (some b) → input.length = 7 →
      b.checksum_digit =
        if 10 - ((3 * sumIdxEven b.data + sumIdxOdd b.data) % 10) = 10 then 0
        else 10 - ((3 * sumIdxEven b.data + sumIdxOdd b.data) % 10)) ∧
    (∀ b : EAN8, EAN8.new ['4','5','7','5','6','7','8'] = .ok (some b) →
      b.checksum_digit = 8) ∧
    (∀ b : EAN8, EAN8.new ['9','5','3','4','7','6','3'] = .ok (some b) →
      b.checksum_digit = 9) := by
  have key : ∀ b : EAN8, b.checksum_digit =
      if 10 - ((3 * sumIdxEven b.data + sumIdxOdd b.data) % 10) = 10 then 0
      else 10 - ((3 * sumIdxEven b.data + sumIdxOdd b.data) % 10) := by
    intro b
    unfold EAN8.checksum_digit
    rw [oddsEvens_eq]
    dsimp only
    rw [Nat.mul_comm (sumIdxEven b.data) 3]
  refine ⟨fun input b _ _ => key b, ?_, ?_⟩
  · intro b hb
    rw [show EAN8.new ['4','5','7','5','6','7','8'] =
        Except.ok (some ⟨[4,5,7,5,6,7,8]⟩) from rfl] at hb
    simp only [Except.ok.injEq, Option.some.injEq] at hb
    rw [← hb]
    rfl
  · intro b hb
    rw [show EAN8.new ['9','5','3','4','7','6','3'] =
        Except.ok (some ⟨[9,5,3,4,7,6,3]⟩) from rfl] at hb
    simp only [Except.ok.injEq, Option.some.injEq] at hb
    rw [← hb]
    rfl

/-- Witness for C2 at the inputs `"1234567"`, `"4575678"` and `"9534763"`. -/
theorem C2_ean8_checksum_witness :
    EAN8.checksum_digit ⟨[1,2,3,4,5,6,7]⟩ =
      (if 10 - ((3 * sumIdxEven [1,2,3,4,5,6,7] + sumIdxOdd [1,2,3,4,5,6,7]) % 10) = 10
       then 0
       else 10 - ((3 * sumIdxEven [1,2,3,4,5,6,7] + sumIdxOdd [1,2,3,4,5,6,7]) % 10)) ∧
    EAN8.checksum_digit ⟨[4,5,7,5,6,7,8]⟩ = 8 ∧
    EAN8.checksum_digit ⟨[9,5,3,4,7,6,3]⟩ = 9 :=
  ⟨C2_ean8_checksum.1 ['1','2','3','4','5','6','7'] ⟨[1,2,3,4,5,6,7]⟩ rfl rfl,
   C2_ean8_checksum.2.1 ⟨[4,5,7,5,6,7,8]⟩ rfl,
   C2_ean8_checksum.2.2 ⟨[9,5,3,4,7,6,3]⟩ rfl⟩

/-- Claim C6: for every `EANSUPP` instance (both variants),
`checksum_digit()` equals `((odds*3) + (evens*9)) mod 10` with a result of 10
mapped to 0, where `odds` sums the digits at even zero-based indices and
`evens` those at odd indices of the stored digit sequence. -/
theorem C6_eansupp_checksum (s : EANSUPP) :
    s.checksum_digit =
      if (sumIdxEven s.raw_data * 3 + sumIdxOdd s.raw_data * 9) % 10 = 10 then 0
      else (sumIdxEven s.raw_data * 3 + sumIdxOdd s.raw_data * 9) % 10 := by
  unfold EANSUPP.checksum_digit
  rw [oddsEvens_eq]

/-- Claim C4 (evidence of the defect): the 8-character all-digit input
`"12345678"` lies outside the declared `valid_len()` range `[7,8)`, yet
`EAN8::new` succeeds on it (the `data_len > valid_len.end` comparison in
`parse` admits length 8), instead of failing with a length-class error as
the claim requires. The 20-character and 7-character examples behave as
claimed. -/
theorem C4_ean8_length_gap :
    EAN8.new ['1','2','3','4','5','6','7','8'] = .ok (some ⟨[1,2,3,4,5,6,7,8]⟩) ∧
    (['1','2','3','4','5','6','7','8'] : List Char).length = 8 ∧
    parse ean8Cfg
      ['1','1','1','1','1','1','2','2','2','2','2','2','2','3','3','3','3','3','3'] =
      .error (.lengthError 7 7) ∧
    EAN8.new ['1','2','3','4','5','6','7'] = .ok (some ⟨[1,2,3,4,5,6,7]⟩) :=
  ⟨rfl, rfl, rfl, rfl⟩

/-- Claim C9: for every input accepted by `new` (EAN8 and both EANSUPP
variants), `raw_data()` returns exactly the digit values of the input's
characters, in input order. -/
theorem C9_raw_data_roundtrip (input : List Char) :
    (∀ b : EAN8, EAN8.new input = .ok (some b) →
      b.raw_data = input.map (fun c => c.toNat - 48)) ∧
    (∀ s : EANSUPP, EANSUPP.new input = .ok (some s) →
      s.raw_data = input.map (fun c => c.toNat - 48)) := by
  constructor
  · intro b hb
    exact (ean8_new_inv input b hb).1
  · intro s hs
    exact (eansupp_new_inv input s hs).1

/-- Witness for C9 at `"1234567"` (EAN8) and `"98"` (EANSUPP/EAN2). -/
theorem C9_raw_data_roundtrip_witness :
    EAN8.raw_data ⟨[1,2,3,4,5,6,7]⟩ =
      ['1','2','3','4','5','6','7'].map (fun c => c.toNat - 48) ∧
    EANSUPP.raw_data (.ean2 [9,8]) = ['9','8'].map (fun c => c.toNat - 48) :=
  ⟨(C9_raw_data_roundtrip ['1','2','3','4','5','6','7']).1 ⟨[1,2,3,4,5,6,7]⟩ rfl,
   (C9_raw_data_roundtrip ['9','8']).2 (.ean2 [9,8]) rfl⟩

/-- Claim C5: `EANSUPP::new` rejects in two stages — the shared range check
accepts character counts 2 through 5 inclusive (all-numeric 3- and 4-digit
inputs pass it), and the variant-selection step returns `EAN2` for exactly 2
digits, `EAN5` for exactly 5 digits, and fails with the unsupported-length
error for every other digit count that passed the range check. -/
theorem C5_eansupp_two_stage (input : List Char)
    (hdig : ∀ c ∈ input, c ∈ eanValidChars) :
    (2 ≤ input.length → input.length ≤ 5 → parse eansuppCfg input = .ok input) ∧
    (input.length < 2 ∨ 5 < input.length →
      parse eansuppCfg input = .error (.lengthError 2 4)) ∧
    (input.length = 2 →
      EANSUPP.new input = .ok (some (.ean2 (input.map (fun c => c.toNat - 48))))) ∧
    (input.length = 5 →
      EANSUPP.new input = .ok (some (.ean5 (input.map (fun c => c.toNat - 48))))) ∧
    (2 ≤ input.length → input.length ≤ 5 → input.length ≠ 2 → input.length ≠ 5 →
      EANSUPP.new input = .error (.invalidLength input.length)) := by
  have hparse : 2 ≤ input.length → input.length ≤ 5 →
      parse eansuppCfg input = .ok input :=
    fun h1 h2 => parse_ok_of eansuppCfg input h1 h2 hdig
  have hnew : 2 ≤ input.length → input.length ≤ 5 →
      EANSUPP.new input =
        (if input.length = 2 then
          .ok (some (.ean2 (input.map (fun c => c.toNat - 48))))
        else if input.length = 5 then
          .ok (some (.ean5 (input.map (fun c => c.toNat - 48))))
        else .error (.invalidLength input.length)) := by
    intro h1 h2
    unfold EANSUPP.new
    rw [hparse h1 h2]
    dsimp only
    rw [digitsOf_of_valid input hdig]
    dsimp only
    rw [List.length_map]
  refine ⟨hparse, ?_, ?_, ?_, ?_⟩
  · intro h
    exact parse_len_err eansuppCfg input
      (by show input.length < 2 ∨ input.length > 5; omega)
  · intro h2
    rw [hnew (by omega) (by omega), if_pos h2]
  · intro h5
    rw [hnew (by omega) (by omega), if_neg (by omega), if_pos h5]
  · intro h1 h2 hne2 hne5
    rw [hnew h1 h2, if_neg hne2, if_neg hne5]

/-- Witness for C5 at the inputs `"123"`, `"12"` and `"12345"`. -/
theorem C5_eansupp_two_stage_witness :
    parse eansuppCfg ['1','2','3'] = .ok ['1','2','3'] ∧
    EANSUPP.new ['1','2'] =
      .ok (some (.ean2 (['1','2'].map (fun c => c.toNat - 48)))) ∧
    EANSUPP.new ['1','2','3','4','5'] =
      .ok (some (.ean5 (['1','2','3','4','5'].map (fun c => c.toNat - 48)))) ∧
    EANSUPP.new ['1','2','3'] = .error (.invalidLength ['1','2','3'].length) :=
  ⟨(C5_eansupp_two_stage ['1','2','3'] (by decide)).1 (by decide) (by decide),
   (C5_eansupp_two_stage ['1','2'] (by decide)).2.2.1 rfl,
   (C5_eansupp_two_stage ['1','2','3','4','5'] (by decide)).2.2.2.1 rfl,
   (C5_eansupp_two_stage ['1','2','3'] (by decide)).2.2.2.2
     (by decide) (by decide) (by decide) (by decide)⟩

/-- Claim C7: per-position parity selection — for an `EAN2` instance with
digits `d0, d1` the parity pattern is the `EAN2_PARITY` entry at index
`((10*d0) + d1) mod 4`, and for an `EAN5` instance it is the `EAN5_PARITY`
entry at index `checksum_digit()`. -/
theorem C7_supp_parity (s : EANSUPP) :
    (∀ d0 d1 rest, s = .ean2 (d0 :: d1 :: rest) →
      s.parity = some (EAN2_PARITY.getD (((10 * d0) + d1) % 4) [])) ∧
    (∀ dd, s = .ean5 dd →
      s.parity = some (EAN5_PARITY.getD s.checksum_digit [])) := by
  constructor
  · rintro d0 d1 rest rfl
    show EAN2_PARITY.get? (((d0 * 10) + d1) % 4) =
      some (EAN2_PARITY.getD (((10 * d0) + d1) % 4) [])
    rw [Nat.mul_comm d0 10]
    exact EAN2_PARITY_get _ (Nat.mod_lt _ (by omega))
  · rintro dd rfl
    show EAN5_PARITY.get? (EANSUPP.checksum_digit (.ean5 dd)) =
      some (EAN5_PARITY.getD (EANSUPP.checksum_digit (.ean5 dd)) [])
    exact EAN5_PARITY_get _ (eansupp_checksum_digit_lt _)

/-- Witness for C7 at the `EAN2` instance `[3,4]` and the `EAN5` instance
`[5,1,2,3,4]`. -/
theorem C7_supp_parity_witness :
    EANSUPP.parity (.ean2 [3,4]) = some (EAN2_PARITY.getD (((10 * 3) + 4) % 4) []) ∧
    EANSUPP.parity (.ean5 [5,1,2,3,4]) =
      some (EAN5_PARITY.getD (EANSUPP.checksum_digit (.ean5 [5,1,2,3,4])) []) :=
  ⟨(C7_supp_parity (.ean2 [3,4])).1 3 4 [] rfl,
   (C7_supp_parity (.ean5 [5,1,2,3,4])).2 [5,1,2,3,4] rfl⟩

/-- Claim C1: for every valid 7-digit input accepted by `EAN8::new`,
`encode()` is exactly left guard `1,0,1` · left-odd patterns of digits 1–2 ·
left-odd patterns of digits 3–4 · middle guard `0,1,0,1,0` · right patterns
of digits 5–7 · right pattern of the checksum digit · right guard `1,0,1`,
and the result always has exactly 67 bits. -/
theorem C1_ean8_encode (input : List Char) (b : EAN8)
    (h : EAN8.new input = .ok (some b)) (h7 : input.length = 7) :
    b.encode = some (
      EAN_LEFT_GUARD ++ ((b.data.take 2).map (tableEntry 0)).flatten
      ++ (((b.data.drop 2).take 2).map (tableEntry 0)).flatten
      ++ EAN_MIDDLE_GUARD ++ ((b.data.drop 4).map (tableEntry 2)).flatten
      ++ tableEntry 2 b.checksum_digit ++ EAN_RIGHT_GUARD) ∧
    (∀ l, b.encode = some l → l.length = 67) := by
  obtain ⟨_, hlen, hall, _, _⟩ := ean8_new_inv input b h
  have henc := ean8_encode_eq b hall
  refine ⟨henc, ?_⟩
  intro l hl
  rw [henc] at hl
  simp only [Option.some.injEq] at hl
  subst hl
  have e1 : (b.data.take 2).length = 2 := by
    rw [List.length_take]; omega
  have e2 : ((b.data.drop 2).take 2).length = 2 := by
    rw [List.length_take, List.length_drop]; omega
  have e3 : (b.data.drop 4).length = 3 := by
    rw [List.length_drop]; omega
  have f1 := flatten_tableEntry_length 0 (by omega) (b.data.take 2)
    (fun d hd => hall d (List.take_subset _ _ hd))
  have f2 := flatten_tableEntry_length 0 (by omega) ((b.data.drop 2).take 2)
    (fun d hd => hall d (List.drop_subset _ _ (List.take_subset _ _ hd)))
  have f3 := flatten_tableEntry_length 2 (by omega) (b.data.drop 4)
    (fun d hd => hall d (List.drop_subset _ _ hd))
  have fc := (char_encoding_spec 2 (by omega) _ (ean8_checksum_digit_lt b)).2
  simp only [EAN8.number_system_digits, EAN8.left_digits, EAN8.right_digits,
    List.length_append, f1, f2, f3, fc, e1, e2, e3,
    EAN_LEFT_GUARD, EAN_MIDDLE_GUARD, EAN_RIGHT_GUARD,
    List.length_cons, List.length_nil]

/-- Witness for C1 at the input `"5512345"`. -/
theorem C1_ean8_encode_witness :
    EAN8.encode ⟨[5,5,1,2,3,4,5]⟩ = some (
      EAN_LEFT_GUARD ++ (([5,5] : List Nat).map (tableEntry 0)).flatten
      ++ ((([1,2,3,4,5] : List Nat).take 2).map (tableEntry 0)).flatten
      ++ EAN_MIDDLE_GUARD
      ++ ((([5,5,1,2,3,4,5] : List Nat).drop 4).map (tableEntry 2)).flatten
      ++ tableEntry 2 (EAN8.checksum_digit ⟨[5,5,1,2,3,4,5]⟩) ++ EAN_RIGHT_GUARD) ∧
    (∀ l, EAN8.encode ⟨[5,5,1,2,3,4,5]⟩ = some l → l.length = 67) :=
  C1_ean8_encode ['5','5','1','2','3','4','5'] ⟨[5,5,1,2,3,4,5]⟩ rfl rfl

/-- Claim C3: for every `EANSUPP` instance produced by `new`, `encode()`
begins with the supplemental guard `1,0,1,1`, followed by the per-position
7-bit patterns selected by the parity slots, with the 2-bit separator `0,1`
before every digit group except the first; the output has exactly 20 bits
for `EAN2` and 47 bits for `EAN5`. -/
theorem C3_eansupp_encode (input : List Char) (s : EANSUPP)
    (h : EANSUPP.new input = .ok (some s)) :
    (∃ par, s.parity = some par ∧
      s.encode = some (EANSUPP_LEFT_GUARD ++
        sepJoin ((s.raw_data.zip par).map (fun p => tableEntry p.2 p.1)))) ∧
    (∀ l, s.encode = some l →
      ((∃ dd, s = .ean2 dd) → l.length = 20) ∧
      ((∃ dd, s = .ean5 dd) → l.length = 47)) := by
  obtain ⟨_, _, hall, hvar⟩ := eansupp_new_inv input s h
  have h2 : 2 ≤ s.raw_data.length := by
    rcases hvar with ⟨hv, _⟩ | ⟨hv, _⟩ <;> omega
  obtain ⟨par, hpar, hlen5, hbound, henc⟩ := eansupp_encode_eq s hall h2
  refine ⟨⟨par, hpar, henc⟩, ?_⟩
  intro l hl
  rw [henc] at hl
  simp only [Option.some.injEq] at hl
  subst hl
  have hslice7 : ∀ x ∈ (s.raw_data.zip par).map (fun p => tableEntry p.2 p.1),
      x.length = 7 := by
    intro x hx
    simp only [List.mem_map] at hx
    obtain ⟨p, hp, rfl⟩ := hx
    obtain ⟨hp1, hp2⟩ := List.of_mem_zip hp
    exact (char_encoding_spec p.2 (hbound p.2 hp2) p.1 (hall p.1 hp1)).2
  have hzlen : ((s.raw_data.zip par).map (fun p => tableEntry p.2 p.1)).length =
      min s.raw_data.length 5 := by
    rw [List.length_map, List.length_zip, hlen5]
  constructor
  · rintro ⟨dd, rfl⟩
    have hn2 : ((EANSUPP.ean2 dd).raw_data).length = 2 := by
      rcases hvar with ⟨hv, _⟩ | ⟨hv, habs⟩
      · exact hv
      · cases habs
    rw [List.length_append,
      sepJoin_length _ hslice7 (by
        intro habs
        rw [habs] at hzlen
        simp [hn2] at hzlen),
      hzlen, hn2]
    rfl
  · rintro ⟨dd, rfl⟩
    have hn5 : ((EANSUPP.ean5 dd).raw_data).length = 5 := by
      rcases hvar with ⟨hv, habs⟩ | ⟨hv, _⟩
      · cases habs
      · exact hv
    rw [List.length_append,
      sepJoin_length _ hslice7 (by
        intro habs
        rw [habs] at hzlen
        simp [hn5] at hzlen),
      hzlen, hn5]
    rfl

/-- Witness for C3 at the input `"34"` (an `EAN2` instance). -/
theorem C3_eansupp_encode_witness :
    (∃ par, EANSUPP.parity (.ean2 [3,4]) = some par ∧
      EANSUPP.encode (.ean2 [3,4]) = some (EANSUPP_LEFT_GUARD ++
        sepJoin (((EANSUPP.raw_data (.ean2 [3,4])).zip par).map
          (fun p => tableEntry p.2 p.1)))) ∧
    (∀ l, EANSUPP.encode (.ean2 [3,4]) = some l →
      ((∃ dd, EANSUPP.ean2 [3,4] = .ean2 dd) → l.length = 20) ∧
      ((∃ dd, EANSUPP.ean2 [3,4] = .ean5 dd) → l.length = 47)) :=
  C3_eansupp_encode ['3','4'] (.ean2 [3,4]) rfl

/-- Claim C10: every `EAN8` or `EANSUPP` instance returned by `new` stores
only digit values in `[0,9]`, so every `EAN_ENCODINGS[side][d]` lookup
performed during `encode()` is within the bounds of the 3×10 table and the
encoding path cannot panic (modelled: `encode` returns `some`). -/
theorem C10_no_panic (input : List Char) :
    (∀ b : EAN8, EAN8.new input = .ok (some b) →
      (∀ d ∈ b.raw_data, d ≤ 9) ∧ b.encode.isSome = true) ∧
    (∀ s : EANSUPP, EANSUPP.new input = .ok (some s) →
      (∀ d ∈ s.raw_data, d ≤ 9) ∧ s.encode.isSome = true) := by
  constructor
  · intro b hb
    obtain ⟨_, _, hall, _, _⟩ := ean8_new_inv input b hb
    refine ⟨fun d hd => by have := hall d hd; omega, ?_⟩
    rw [ean8_encode_eq b hall]
    rfl
  · intro s hs
    obtain ⟨_, _, hall, hvar⟩ := eansupp_new_inv input s hs
    have h2 : 2 ≤ s.raw_data.length := by
      rcases hvar with ⟨hv, _⟩ | ⟨hv, _⟩ <;> omega
    obtain ⟨par, _, _, _, henc⟩ := eansupp_encode_eq s hall h2
    refine ⟨fun d hd => by have := hall d hd; omega, ?_⟩
    rw [henc]
    rfl

/-- Witness for C10 at `"1234567"` (EAN8) and `"12345"` (EANSUPP/EAN5). -/
theorem C10_no_panic_witness :
    ((∀ d ∈ EAN8.raw_data ⟨[1,2,3,4,5,6,7]⟩, d ≤ 9) ∧
      (EAN8.encode ⟨[1,2,3,4,5,6,7]⟩).isSome = true) ∧
    ((∀ d ∈ EANSUPP.raw_data (.ean5 [1,2,3,4,5]), d ≤ 9) ∧
      (EANSUPP.encode (.ean5 [1,2,3,4,5])).isSome = true) :=
  ⟨(C10_no_panic ['1','2','3','4','5','6','7']).1 ⟨[1,2,3,4,5,6,7]⟩ rfl,
   (C10_no_panic ['1','2','3','4','5']).2 (.ean5 [1,2,3,4,5]) rfl⟩

/-- Claim C8: for every input of acceptable length, `parse` fails with an
invalid-character error identifying the leftmost character outside
`valid_chars()` whenever one exists, and otherwise returns the input
unchanged, so that every subsequent per-character digit conversion
succeeds. -/
theorem C8_parse_first_bad_char (cfg : ParseCfg) (input : List Char)
    (h1 : cfg.lenStart ≤ input.length) (h2 : input.length ≤ cfg.lenStop) :
    ((∃ c ∈ input, c ∉ cfg.validChars) →
      ∃ i, ∃ hi : i < input.length,
        input.get ⟨i, hi⟩ ∉ cfg.validChars ∧
        (∀ j, ∀ hj : j < input.length, j < i →
          input.get ⟨j, hj⟩ ∈ cfg.validChars) ∧
        parse cfg input = .error (.invalidChar (input.get ⟨i, hi⟩))) ∧
    ((∀ c ∈ input, c ∈ cfg.validChars) →
      parse cfg input = .ok input ∧
      (cfg.validChars = eanValidChars → ∃ ds, digitsOf input = some ds)) := by
  constructor
  · rintro ⟨c, hcmem, hcbad⟩
    have hpc : ((cfg.validChars.find? (fun vc => vc == c)).isNone) = true :=
      (find?_beq_isNone_iff cfg.validChars c).mpr hcbad
    have hsome : (input.find?
        (fun x => (cfg.validChars.find? (fun vc => vc == x)).isNone)).isSome :=
      List.find?_isSome.mpr ⟨c, hcmem, hpc⟩
    obtain ⟨c', hc'⟩ := Option.isSome_iff_exists.mp hsome
    obtain ⟨i, hi, hgi, hpc', hmin⟩ := find?_leftmost _ input c' hc'
    refine ⟨i, hi, ?_, ?_, ?_⟩
    · rw [hgi]
      exact (find?_beq_isNone_iff cfg.validChars c').mp hpc'
    · intro j hj hlt
      have hf := hmin j hj hlt
      by_contra hnot
      rw [(find?_beq_isNone_iff cfg.validChars _).mpr hnot] at hf
      cases hf
    · rw [hgi]
      exact parse_bad_char cfg input (by omega) c' hc'
  · intro hgood
    refine ⟨parse_ok_of cfg input h1 h2 hgood, ?_⟩
    intro hchars
    rw [hchars] at hgood
    exact ⟨_, digitsOf_of_valid input hgood⟩

/-- Witness for C8 at the 7-character input `"1234er7"` (first bad character
`'e'` at index 4) and the all-digit input `"1234567"`. -/
theorem C8_parse_first_bad_char_witness :
    (∃ i, ∃ hi : i < (['1','2','3','4','e','r','7'] : List Char).length,
      (['1','2','3','4','e','r','7'] : List Char).get ⟨i, hi⟩ ∉ ean8Cfg.validChars ∧
      (∀ j, ∀ hj : j < (['1','2','3','4','e','r','7'] : List Char).length, j < i →
        (['1','2','3','4','e','r','7'] : List Char).get ⟨j, hj⟩ ∈ ean8Cfg.validChars) ∧
      parse ean8Cfg ['1','2','3','4','e','r','7'] =
        .error (.invalidChar ((['1','2','3','4','e','r','7'] : List Char).get ⟨i, hi⟩))) ∧
    (parse ean8Cfg ['1','2','3','4','5','6','7'] = .ok ['1','2','3','4','5','6','7'] ∧
      (ean8Cfg.validChars = eanValidChars →
        ∃ ds, digitsOf ['1','2','3','4','5','6','7'] = some ds)) :=
  ⟨(C8_parse_first_bad_char ean8Cfg ['1','2','3','4','e','r','7']
      (by decide) (by decide)).1 (by decide),
   (C8_parse_first_bad_char ean8Cfg ['1','2','3','4','5','6','7']
      (by decide) (by decide)).2 (by decide)⟩

/-! ### Validation of the spec-modelled tables

The encoding tables and guards of `src/sym/ean13.rs` are modelled from the
spec; the theorems below check the modelled data against everything the spec
pins down about them: the two structural table properties of §4.4 and all
four known-vector regression encodings of §8. -/

/-- §4.4 table properties, as they actually hold of the standard tables:
the rows of the three tables are pairwise distinct 7-bit patterns, every
left-odd row has an odd number of 1-bits, every left-even and right row an
even number, and each right row is the bitwise complement of the left-odd
row of the same digit. (The spec's §4.4 phrases the two parity classes the
other way around; the known vectors of §8, which the tables below
reproduce exactly, fix the orientation used here.) -/
theorem EAN_ENCODINGS_props :
    (∀ d, d < 10 → (tableEntry 0 d).sum % 2 = 1) ∧
    (∀ d, d < 10 → (tableEntry 1 d).sum % 2 = 0) ∧
    (∀ d, d < 10 → (tableEntry 2 d).sum % 2 = 0) ∧
    (∀ d, d < 10 → tableEntry 2 d = (tableEntry 0 d).map (fun x => 1 - x)) := by
  decide

/-- §8 known vectors: `"5512345"` (check digit 7) and `"9834651"` (check
digit 3) encode to the documented 67-bit streams. -/
theorem ean8_known_vectors :
    EAN8.new ['5','5','1','2','3','4','5'] = .ok (some ⟨[5,5,1,2,3,4,5]⟩) ∧
    EAN8.encode ⟨[5,5,1,2,3,4,5]⟩ = some
      [1,0,1,0,1,1,0,0,0,1,0,1,1,0,0,0,1,0,0,1,1,0,0,1,0,0,1,0,0,1,1,0,1,0,1,
       0,1,0,0,0,0,1,0,1,0,1,1,1,0,0,1,0,0,1,1,1,0,1,0,0,0,1,0,0,1,0,1] ∧
    EAN8.new ['9','8','3','4','6','5','1'] = .ok (some ⟨[9,8,3,4,6,5,1]⟩) ∧
    EAN8.encode ⟨[9,8,3,4,6,5,1]⟩ = some
      [1,0,1,0,0,0,1,0,1,1,0,1,1,0,1,1,1,0,1,1,1,1,0,1,0,1,0,0,0,1,1,0,1,0,1,
       0,1,0,1,0,0,0,0,1,0,0,1,1,1,0,1,1,0,0,1,1,0,1,0,1,0,0,0,0,1,0,1] :=
  ⟨rfl, rfl, rfl, rfl⟩

/-- §8 known supplemental vectors: `"34"` encodes to the documented 20-bit
stream and `"51234"` to the documented 47-bit stream. -/
theorem eansupp_known_vectors :
    EANSUPP.new ['3','4'] = .ok (some (.ean2 [3,4])) ∧
    EANSUPP.encode (.ean2 [3,4]) = some
      [1,0,1,1,0,1,0,0,0,0,1,0,1,0,1,0,0,0,1,1] ∧
    EANSUPP.new ['5','1','2','3','4'] = .ok (some (.ean5 [5,1,2,3,4])) ∧
    EANSUPP.encode (.ean5 [5,1,2,3,4]) = some
      [1,0,1,1,0,1,1,0,0,0,1,0,1,0,0,1,1,0,0,1,0,1,0,0,1,1,0,1,1,0,1,0,1,1,1,
       1,0,1,0,1,0,0,1,1,1,0,1] :=
  ⟨rfl, rfl, rfl, rfl⟩

end Barcoders
